import Mathlib

/-
Verification of tap-linnworks (src/tap_linnworks/) against its
natural-language specification.

The Python source is shallowly embedded: JSON documents become an
inductive `Json` type, Python dicts become association lists, Python
runtime errors (TypeError, KeyError, IndexError, ValueError) become an
explicit `Except` error channel, and Python `datetime` values become
integer timestamps in seconds.  Each embedded definition carries a
comment naming the source function it mirrors.
-/

/-- Python runtime errors that the embedded code can raise.  `httpError`
is the `requests.HTTPError` raised by `Response.raise_for_status`. -/
inductive PyErr where
  | typeError
  | keyError
  | indexError
  | valueError (msg : String)
  | httpError (status : Nat)
deriving DecidableEq, Repr

/-- Association-list lookup, modelling Python `dict[key]` / `dict.get(key)`
for string-keyed dicts (first binding wins; real dicts have unique keys). -/
def alookup {α : Type} : List (String × α) → String → Option α
  | [], _ => none
  | (k, v) :: t, key => if k == key then some v else alookup t key

/-- Substring occurrence test on character lists: true iff the first list
occurs contiguously inside the second. -/
def charsIn (needle : List Char) : List Char → Bool
  | [] => needle.isEmpty
  | c :: t => needle.isPrefixOf (c :: t) || charsIn needle t

/-- Python `needle in hay` for strings (substring containment). -/
def strIn (needle hay : String) : Bool := charsIn needle.data hay.data

/-- JSON values as returned by `response.json()`.  Numbers are modelled as
integers (all numeric fields the embedded code touches are page counts). -/
inductive Json where
  | obj (fields : List (String × Json))
  | arr (elems : List Json)
  | str (s : String)
  | num (n : Int)
  | bool (b : Bool)
  | null

/-- Python `needle in container` where `needle` is a string: key membership
for dicts, element membership for lists, substring test for strings, and a
TypeError for non-container values. -/
def pyContains (needle : String) : Json → Except PyErr Bool
  | .obj fields => .ok (fields.any (fun kv => kv.1 == needle))
  | .arr elems => .ok (elems.any (fun j => match j with
      | .str s => s == needle
      | _ => false))
  | .str s => .ok (strIn needle s)
  | _ => .error .typeError

/-- Python `container[key]` with a string key: dict lookup (KeyError when
absent), TypeError on lists and other non-dict values. -/
def pySubscript (container : Json) (key : String) : Except PyErr Json :=
  match container with
  | .obj fields =>
    match alookup fields key with
    | some v => .ok v
    | none => .error .keyError
  | _ => .error .typeError

/-- The sentinel message the Linnworks API returns on a 400 once all stock
pages have been consumed (streams.py lines 445 and 453). -/
def noItemsMsg : String := "No items found with given filter."

/-- Errors raised by response validation: `RetriableAPIError`,
`FatalAPIError` (both from singer-sdk), or an uncaught Python error. -/
inductive ApiError where
  | retriable (status : Nat)
  | fatal (status : Nat)
  | python (e : PyErr)
deriving DecidableEq, Repr

/-- `StockItems.validate_response` (streams.py lines 429-448): retriable on
extra-retry statuses and 5xx; on 4xx, accept when the body's `Message`
contains the no-items sentinel, otherwise fatal; accept otherwise. -/
def StockItems.validate_response (extra_retry_statuses : List Nat)
    (status_code : Nat) (body : Json) : Except ApiError Unit :=
  if status_code ∈ extra_retry_statuses ∨ 500 ≤ status_code then
    .error (.retriable status_code)
  else if 400 ≤ status_code ∧ status_code < 500 then
    match pyContains "Message" body with
    | .error e => .error (.python e)
    | .ok true =>
      match pySubscript body "Message" with
      | .error e => .error (.python e)
      | .ok v =>
        match pyContains noItemsMsg v with
        | .error e => .error (.python e)
        | .ok true => .ok ()
        | .ok false => .error (.fatal status_code)
    | .ok false => .error (.fatal status_code)
  else
    .ok ()

/-- `extract_jsonpath` with the StockItems path expression `$.[*]`
(singer-sdk collaborator): yields the elements of a top-level array, the
values of a top-level object, and nothing for scalars. -/
def extract_jsonpath_all : Json → List Json
  | .arr elems => elems
  | .obj fields => fields.map (fun kv => kv.2)
  | _ => []

/-- `StockItems.parse_response` (streams.py lines 449-455): zero records
when the body's `Message` contains the no-items sentinel, otherwise the
records located by `$.[*]`. -/
def StockItems.parse_response (body : Json) : Except PyErr (List Json) :=
  match pyContains "Message" body with
  | .error e => .error e
  | .ok true =>
    match pySubscript body "Message" with
    | .error e => .error e
    | .ok v =>
      match pyContains noItemsMsg v with
      | .error e => .error e
      | .ok true => .ok []
      | .ok false => .ok (extract_jsonpath_all body)
  | .ok false => .ok (extract_jsonpath_all body)

/-- A response body whose `Message` field (when present) holds a string and
which does not accidentally trip Python `in`-operator type errors: the
shapes a JSON HTTP API actually returns. -/
def bodyOk : Json → Bool
  | .obj fields =>
    match alookup fields "Message" with
    | none => true
    | some (.str _) => true
    | some _ => false
  | .arr elems => !(elems.any (fun j => match j with
      | .str s => s == "Message"
      | _ => false))
  | .str s => !(strIn "Message" s)
  | _ => false

/-- The benign end-of-data body: a JSON object whose `Message` field is a
string containing the no-items sentinel. -/
def benignBody : Json → Bool
  | .obj fields =>
    match alookup fields "Message" with
    | some (.str m) => strIn noItemsMsg m
    | _ => false
  | _ => false

/-- Concrete benign 400 body used as evaluation witness. -/
def exBenignBody : Json := .obj [("Message", .str "No items found with given filter.")]

/-- Python truthiness of an optional integer (`if previous_token:`):
None and 0 are falsy, every other integer is truthy. -/
def pyTruthy : Option Int → Bool
  | none => false
  | some n => n != 0

/-- `LinnworksStream.get_next_page_token` (client.py lines 133-140), after
extracting the top-level `PageNumber` and `TotalPages` fields of the
response body. -/
def LinnworksStream.get_next_page_token (actual_page total_pages : Int) : Option Int :=
  if actual_page < total_pages then some (actual_page + 1) else none

/-- `ProcessedOrders.get_next_page_token` (streams.py lines 141-149), after
extracting `PageNumber` and `TotalPages` from the `ProcessedOrders` wrapper
object of the response body. -/
def ProcessedOrders.get_next_page_token (actual_page total_pages : Int) : Option Int :=
  if actual_page < total_pages then some (actual_page + 1) else none

/-- Modelled from the spec: the request loop of the singer-sdk Paginator
collaborator (spec section 4.2).  It issues the request for the current
page token and repeats with the extracted next token until the extractor
returns none; the returned list is the requested page numbers.  `fuel`
bounds the recursion and never binds in the theorems below, which also
show the final extractor value is none. -/
def paginate (next : Int → Option Int) : Int → Nat → List Int
  | p, 0 => [p]
  | p, fuel + 1 =>
    match next p with
    | none => [p]
    | some q => p :: paginate next q fuel

/-- The value `LinnworksStream.get_starting_time` returns: a datetime
(integer seconds), the raw configured string (returned unparsed when the
configured start date is falsy), or Python None. -/
inductive StartValue where
  | missing
  | rawStr (s : String)
  | time (t : Int)
deriving DecidableEq, Repr

/-- `LinnworksStream.get_starting_time` (client.py lines 155-164).
Datetimes are integer timestamps in seconds, so `timedelta(seconds=1)` is
`+ 1`; `parseF` stands for `pendulum.parse`; `rep_key` is the value of the
singer-sdk collaborator `get_starting_timestamp`, i.e. the stored bookmark
replication value for the partition when one exists (spec section 4.3). -/
def LinnworksStream.get_starting_time (parseF : String → Int)
    (config_start_date : Option String) (rep_key : Option Int) : StartValue :=
  let start_date : StartValue :=
    match config_start_date with
    | none => .missing
    | some s => if s ≠ "" then .time (parseF s) else .rawStr s
  match rep_key with
  | none => start_date
  | some r => .time (r + 1)

/-- `ProcessedOrders.get_child_context` (streams.py lines 172-176): builds
the child partition context from a parent record (modelled as a
string-valued dict that carries `pkOrderID`). -/
def ProcessedOrders.get_child_context (record : List (String × String))
    (context : Option (List (String × String))) :
    Except PyErr (List (String × String)) :=
  match alookup record "pkOrderID" with
  | some v => .ok [("processed_order_id", v)]
  | none => .error .keyError

/-- `StockItems.get_next_page_token` (streams.py lines 400-410): a next
token exists iff the body is a JSON list; `if previous_token:` is Python
truthiness on the previous token. -/
def StockItems.get_next_page_token (body : Json) (previous_token : Option Int) : Option Int :=
  match body with
  | .arr _ =>
    if pyTruthy previous_token then some (previous_token.getD 0 + 1)
    else some 2
  | _ => none

/-- The HTTP response of the auth exchange endpoint: status code plus JSON
body (a string-valued object). -/
structure AuthResponse where
  status : Nat
  jsonBody : List (String × String)
deriving DecidableEq, Repr

/-- The `APIKeyAuthenticator` produced on success: a header key/value. -/
structure Authenticator where
  key : String
  value : String
deriving DecidableEq, Repr

/-- `requests.Response.raise_for_status` (requests collaborator): raises
`HTTPError` for 4xx and 5xx statuses only; all others pass. -/
def raise_for_status (status : Nat) : Except PyErr Unit :=
  if 400 ≤ status ∧ status < 600 then .error (.httpError status) else .ok ()

/-- `LinnworksAuthenticator.create_for_stream` (authenticator.py lines
7-24).  The Nat in the result counts the outbound exchange calls made by
this invocation: the function posts to the exchange endpoint
unconditionally, exactly once, so it is always 1.  On a 4xx/5xx response
`raise_for_status` raises; otherwise the `Token` field of the JSON body
becomes the value of the `Authorization` header. -/
def LinnworksAuthenticator.create_for_stream (resp : AuthResponse) :
    Nat × Except PyErr Authenticator :=
  (1,
    match raise_for_status resp.status with
    | .error e => .error e
    | .ok _ =>
      match alookup resp.jsonBody "Token" with
      | some t => .ok ⟨"Authorization", t⟩
      | none => .error .keyError)

/-- `LinnworksStream.authenticator` (client.py lines 114-121): each access
to the property invokes `create_for_stream` afresh; no field or global
stores the result. -/
def LinnworksStream.authenticator (resp : AuthResponse) :
    Nat × Except PyErr Authenticator :=
  LinnworksAuthenticator.create_for_stream resp

/-- Total outbound exchange calls made by `n` successive accesses of the
authenticator property within one process. -/
def LinnworksStream.exchangeCallsAfter (resp : AuthResponse) : Nat → Nat
  | 0 => 0
  | n + 1 =>
    LinnworksStream.exchangeCallsAfter resp n + (LinnworksStream.authenticator resp).1

/-- Python `==` on string-valued dicts: same keys with same values,
irrespective of insertion order (structural equality of mappings). -/
def dictEq (a b : List (String × String)) : Bool :=
  a.all (fun kv => alookup b kv.1 == some kv.2) &&
  b.all (fun kv => alookup a kv.1 == some kv.2)

/-- One entry of a persisted `partitions` list: the identifying `context`
dict plus the remaining bookmark fields (e.g. replication_key_value),
modelled as an opaque string-valued dict. -/
structure PartitionState where
  context : List (String × String)
  bookmark : List (String × String)
deriving DecidableEq, Repr

/-- The persisted state of one stream: the optional `partitions` key
(absence of the key is none) plus the remaining scalar keys of the
stream-state dict. -/
structure StreamState where
  partitions : Option (List PartitionState)
  scalars : List (String × String)
deriving DecidableEq, Repr

/-- The tap-level state blob: the optional `bookmarks` mapping from stream
name to stream state. -/
structure TapState where
  bookmarks : Option (List (String × StreamState))
deriving DecidableEq, Repr

/-- `_find_in_partitions_list` (client.py lines 26-43): collects every
entry whose `context` equals the looked-up context; more than one match
raises ValueError; otherwise the first match, or none, is returned. -/
def find_in_partitions_list (partitions : List PartitionState)
    (state_partition_context : List (String × String)) :
    Except PyErr (Option PartitionState) :=
  let found := partitions.filter (fun ps => dictEq ps.context state_partition_context)
  if found.length > 1 then
    .error (.valueError "State file contains duplicate entries for partition")
  else
    .ok found.head?

/-- The hard-coded stream-name list of `get_state_if_exists` (client.py
lines 57-61). -/
def skip_incremental_partitions : List String :=
  ["processed_order_item_images", "processed_order_items", "processed_order_details"]

/-- The streams of this tap that declare a `parent_stream_type`
(streams.py: ProcessedOrderDetails under ProcessedOrders and
StockItemImages under StockItems), i.e. the streams whose partitions are
emitted transiently by a parent within a single run. -/
def parent_driven_streams : List String :=
  ["processed_order_details", "stock_item_images"]

/-- The partitions rewrite of `get_state_if_exists` (client.py lines
63-68): replace the list by a single context-only entry for its last
element; indexing the last element of an empty list raises IndexError. -/
def collapse_partitions (ss : StreamState) : Except PyErr StreamState :=
  match ss.partitions with
  | some ps =>
    match ps.getLast? with
    | some lastEntry => .ok { ss with partitions := some [⟨lastEntry.context, []⟩] }
    | none => .error .indexError
  | none => .ok ss

/-- The value `get_state_if_exists` returns: the whole stream state, a
matched partition entry, or the value stored under an explicit key. -/
inductive StateGot where
  | sstate (ss : StreamState)
  | pstate (p : PartitionState)
  | keyval (v : Option String)
deriving DecidableEq, Repr

/-- `get_state_if_exists` (client.py lines 46-84).  Returns none when
`bookmarks` or the stream id is absent; first rewrites the partitions list
of the hard-coded streams down to its last context; then, following the
Python truthiness of `state_partition_context` (None and the empty dict
both skip the partition lookup), returns the stream state or its keyed
value, or the partition matched by `_find_in_partitions_list` or its
keyed value. -/
def get_state_if_exists (tap_state : TapState) (tap_stream_id : String)
    (state_partition_context : Option (List (String × String)))
    (key : Option String) : Except PyErr (Option StateGot) :=
  match tap_state.bookmarks with
  | none => .ok none
  | some bookmarks =>
    match alookup bookmarks tap_stream_id with
    | none => .ok none
    | some ss0 =>
      match (if tap_stream_id ∈ skip_incremental_partitions ∧ ss0.partitions.isSome
             then collapse_partitions ss0 else .ok ss0) with
      | .error e => .error e
      | .ok ss =>
        if state_partition_context = none ∨ state_partition_context = some [] then
          match key with
          | some k => .ok (some (.keyval (alookup ss.scalars k)))
          | none => .ok (some (.sstate ss))
        else
          match ss.partitions with
          | none => .ok none
          | some ps =>
            match find_in_partitions_list ps (state_partition_context.getD []) with
            | .error e => .error e
            | .ok none => .ok none
            | .ok (some mp) =>
              match key with
              | some k => .ok (some (.keyval (alookup mp.bookmark k)))
              | none => .ok (some (.pstate mp))

/-- `get_state_partitions_list` (client.py lines 87-91): the `partitions`
key of the stream state returned by `get_state_if_exists`, or none. -/
def get_state_partitions_list (tap_state : TapState) (tap_stream_id : String) :
    Except PyErr (Option (List PartitionState)) :=
  match get_state_if_exists tap_state tap_stream_id none none with
  | .error e => .error e
  | .ok (some (.sstate ss)) => .ok ss.partitions
  | .ok _ => .ok none

/-- `LinnworksStream.partitions` (client.py lines 102-112): collects the
contexts of the stored partitions list, keeps only the last one when any
exist, and returns None for an empty result. -/
def LinnworksStream.partitions (tap_state : TapState) (name : String) :
    Except PyErr (Option (List (List (String × String)))) :=
  match get_state_partitions_list tap_state name with
  | .error e => .error e
  | .ok pl =>
    let result := (pl.getD []).map (fun ps => ps.context)
    match result.getLast? with
    | some c => .ok (some [c])
    | none => .ok none

/-- The stored partitions list of a stream, read directly off the state
blob (specification-side helper used to state C9). -/
def statePartitionsOf (tap_state : TapState) (name : String) : List PartitionState :=
  match tap_state.bookmarks with
  | none => []
  | some bookmarks =>
    match alookup bookmarks name with
    | none => []
    | some ss => ss.partitions.getD []

/-- True when reading this stream's state would hit the IndexError of the
collapsing rewrite: the stream is in the hard-coded list and its
partitions key holds the empty list. -/
def skipEmptyCrash (tap_state : TapState) (name : String) : Bool :=
  decide (name ∈ skip_incremental_partitions) &&
  (match tap_state.bookmarks with
   | none => false
   | some bookmarks =>
     match alookup bookmarks name with
     | none => false
     | some ss =>
       match ss.partitions with
       | some [] => true
       | _ => false)

/-- Concrete partition entries used in witnesses and counterexamples. -/
def exPartA : PartitionState :=
  ⟨[("processed_order_id", "A")], [("replication_key_value", "2021")]⟩

def exPartB : PartitionState :=
  ⟨[("processed_order_id", "B")], [("replication_key_value", "2022")]⟩

def exPartI1 : PartitionState := ⟨[("ItemId", "i1")], []⟩

def exPartI2 : PartitionState := ⟨[("ItemId", "i2")], []⟩

/-- A state blob holding two partitions for processed_order_details. -/
def exStatePOD : TapState :=
  ⟨some [("processed_order_details", ⟨some [exPartA, exPartB], []⟩)]⟩

/-- A state blob holding two partitions for stock_item_images. -/
def exStateSII : TapState :=
  ⟨some [("stock_item_images", ⟨some [exPartI1, exPartI2], []⟩)]⟩

theorem alookup_some_any {α : Type} (fields : List (String × α)) (k : String)
    (v : α) (h : alookup fields k = some v) :
    fields.any (fun kv => kv.1 == k) = true := by
  induction fields with
  | nil => simp [alookup] at h
  | cons hd t ih =>
    simp only [alookup] at h
    by_cases hk : (hd.1 == k) = true
    · simp [List.any_cons, hk]
    · rw [if_neg hk] at h
      simp [List.any_cons, hk, ih h]

theorem alookup_none_any {α : Type} (fields : List (String × α)) (k : String)
    (h : alookup fields k = none) :
    fields.any (fun kv => kv.1 == k) = false := by
  induction fields with
  | nil => simp
  | cons hd t ih =>
    simp only [alookup] at h
    by_cases hk : (hd.1 == k) = true
    · rw [if_pos hk] at h
      exact absurd h (by simp)
    · rw [if_neg hk] at h
      simp [List.any_cons, hk, ih h]

/-- Claim C1: response validation for the stock_items stream classifies, in
priority order: configured extra-retry statuses and 5xx are retriable; a
4xx whose body `Message` contains "No items found with given filter." is
accepted and parses to zero records; any other 4xx is fatal; statuses
below 400 are accepted. -/
theorem stock_items_response_classification (extra : List Nat) (status : Nat)
    (body : Json) (hb : bodyOk body = true) :
    ((status ∈ extra ∨ 500 ≤ status) →
      StockItems.validate_response extra status body = .error (.retriable status)) ∧
    (status ∉ extra → status < 500 → 400 ≤ status → benignBody body = true →
      StockItems.validate_response extra status body = .ok () ∧
      StockItems.parse_response body = .ok []) ∧
    (status ∉ extra → status < 500 → 400 ≤ status → benignBody body = false →
      StockItems.validate_response extra status body = .error (.fatal status)) ∧
    (status ∉ extra → status < 400 →
      StockItems.validate_response extra status body = .ok ()) := by
  refine ⟨?_, ?_, ?_, ?_⟩
  · intro h
    simp [StockItems.validate_response, h]
  · intro hmem h500 h400 hben
    have hcond : ¬(status ∈ extra ∨ 500 ≤ status) := by
      push_neg
      exact ⟨hmem, by omega⟩
    match hbody : body with
    | .obj fields =>
      simp only [benignBody] at hben
      match hlk : alookup fields "Message" with
      | some (.str m) =>
        rw [hlk] at hben
        have hben2 : strIn noItemsMsg m = true := by simpa using hben
        have hany := alookup_some_any fields "Message" (.str m) hlk
        constructor
        · simp [StockItems.validate_response, hcond, h400, h500,
            pyContains, hany, pySubscript, hlk, hben2]
        · simp [StockItems.parse_response, pyContains, hany,
            pySubscript, hlk, hben2]
      | some (.obj l) => rw [hlk] at hben; exact absurd hben (by simp)
      | some (.arr l) => rw [hlk] at hben; exact absurd hben (by simp)
      | some (.num n) => rw [hlk] at hben; exact absurd hben (by simp)
      | some (.bool b) => rw [hlk] at hben; exact absurd hben (by simp)
      | some .null => rw [hlk] at hben; exact absurd hben (by simp)
      | none => rw [hlk] at hben; exact absurd hben (by simp)
    | .arr elems => simp [benignBody] at hben
    | .str s => simp [benignBody] at hben
    | .num n => simp [bodyOk] at hb
    | .bool bv => simp [bodyOk] at hb
    | .null => simp [bodyOk] at hb
  · intro hmem h500 h400 hben
    have hcond : ¬(status ∈ extra ∨ 500 ≤ status) := by
      push_neg
      exact ⟨hmem, by omega⟩
    match hbody : body with
    | .obj fields =>
      simp only [bodyOk] at hb
      simp only [benignBody] at hben
      match hlk : alookup fields "Message" with
      | some (.str m) =>
        rw [hlk] at hben
        have hben2 : strIn noItemsMsg m = false := by simpa using hben
        have hany := alookup_some_any fields "Message" (.str m) hlk
        simp [StockItems.validate_response, hcond, h400, h500,
          pyContains, hany, pySubscript, hlk, hben2]
      | some (.obj l) => rw [hlk] at hb; exact absurd hb (by simp)
      | some (.arr l) => rw [hlk] at hb; exact absurd hb (by simp)
      | some (.num n) => rw [hlk] at hb; exact absurd hb (by simp)
      | some (.bool b) => rw [hlk] at hb; exact absurd hb (by simp)
      | some .null => rw [hlk] at hb; exact absurd hb (by simp)
      | none =>
        have hany := alookup_none_any fields "Message" hlk
        simp [StockItems.validate_response, hcond, h400, h500,
          pyContains, hany]
    | .arr elems =>
      simp only [bodyOk] at hb
      simp only [Bool.not_eq_true'] at hb
      simp [StockItems.validate_response, hcond, h400, h500, pyContains, hb]
    | .str s =>
      simp only [bodyOk] at hb
      simp only [Bool.not_eq_true'] at hb
      simp [StockItems.validate_response, hcond, h400, h500, pyContains, hb]
    | .num n => simp [bodyOk] at hb
    | .bool bv => simp [bodyOk] at hb
    | .null => simp [bodyOk] at hb
  · intro hmem h400
    have hcond : ¬(status ∈ extra ∨ 500 ≤ status) := by
      push_neg
      exact ⟨hmem, by omega⟩
    have h4xx : ¬(400 ≤ status ∧ status < 500) := by omega
    simp [StockItems.validate_response, hcond, h4xx]

/-- Evaluation witness for C1: a 400 response with the benign body is
accepted and yields zero records. -/
theorem stock_items_response_classification_witness :
    StockItems.validate_response [429] 400 exBenignBody = .ok () ∧
    StockItems.parse_response exBenignBody = .ok [] :=
  (stock_items_response_classification [429] 400 exBenignBody rfl).2.1
    (by decide) (by decide) (by decide) rfl

/-- Claim C2: the starting replication value is the stored bookmark plus
exactly one second whenever a prior bookmark exists, and the configured
start date (parsed) whenever no bookmark exists. -/
theorem get_starting_time_spec (parseF : String → Int)
    (config_start_date : Option String) (rep_key : Option Int) :
    (∀ b, rep_key = some b →
      LinnworksStream.get_starting_time parseF config_start_date rep_key
        = .time (b + 1)) ∧
    (rep_key = none → ∀ s, config_start_date = some s → s ≠ "" →
      LinnworksStream.get_starting_time parseF config_start_date rep_key
        = .time (parseF s)) := by
  constructor
  · intro b hb
    simp [LinnworksStream.get_starting_time, hb]
  · intro hr s hs hne
    simp [LinnworksStream.get_starting_time, hr, hs, hne]

/-- Evaluation witness for C2: bookmark 7 starts at 8; no bookmark starts
at the parsed configured start date. -/
theorem get_starting_time_witness :
    LinnworksStream.get_starting_time (fun _ => 100)
      (some "2021-01-01T00:00:00Z") (some 7) = .time 8 ∧
    LinnworksStream.get_starting_time (fun _ => 100)
      (some "2021-01-01T00:00:00Z") none = .time 100 :=
  ⟨(get_starting_time_spec (fun _ => 100) (some "2021-01-01T00:00:00Z") (some 7)).1 7 rfl,
   (get_starting_time_spec (fun _ => 100) (some "2021-01-01T00:00:00Z") none).2 rfl
      "2021-01-01T00:00:00Z" rfl (by decide)⟩

theorem paginate_range (N : Nat) :
    ∀ (fuel k : Nat), 1 ≤ k → k ≤ N → N - k ≤ fuel →
    paginate (fun q => LinnworksStream.get_next_page_token q (N : Int)) (k : Int) fuel
      = (List.range' k (N - k + 1)).map Int.ofNat := by
  intro fuel
  induction fuel with
  | zero =>
    intro k h1 h2 h3
    have hk : k = N := by omega
    rw [hk]
    have he : N - N + 1 = 1 := by omega
    rw [he]
    simp [paginate, List.range']
  | succ f ih =>
    intro k h1 h2 h3
    by_cases hlt : k < N
    · have hcast : (k : Int) < (N : Int) := by exact_mod_cast hlt
      have hnext : LinnworksStream.get_next_page_token (k : Int) (N : Int)
          = some (((k + 1 : Nat) : Int)) := by
        simp only [LinnworksStream.get_next_page_token]
        rw [if_pos hcast]
        norm_cast
      simp only [paginate, hnext]
      rw [ih (k + 1) (by omega) (by omega) (by omega)]
      have he : N - k + 1 = (N - (k + 1) + 1) + 1 := by omega
      conv_rhs => rw [he, List.range'_succ, List.map_cons]
      norm_cast
    · have hk : k = N := by omega
      rw [hk]
      have hnone : LinnworksStream.get_next_page_token (N : Int) (N : Int) = none := by
        simp [LinnworksStream.get_next_page_token]
      simp only [paginate, hnone]
      have he : N - N + 1 = 1 := by omega
      rw [he]
      simp [List.range']

/-- Claim C3: both next-page-token extractors return page+1 exactly when
the current page is below the total page count and no token otherwise;
consequently a partition whose responses report N total pages is requested
exactly N times with page numbers 1..N in ascending order, and the
extractor returns none at page N so no request follows it. -/
theorem page_token_sequencing (p t : Int) (N : Nat) (hN : 1 ≤ N) :
    (p < t → LinnworksStream.get_next_page_token p t = some (p + 1)) ∧
    (t ≤ p → LinnworksStream.get_next_page_token p t = none) ∧
    (p < t → ProcessedOrders.get_next_page_token p t = some (p + 1)) ∧
    (t ≤ p → ProcessedOrders.get_next_page_token p t = none) ∧
    (∀ fuel, N ≤ fuel →
      paginate (fun q => LinnworksStream.get_next_page_token q (N : Int)) 1 fuel
        = (List.range' 1 N).map Int.ofNat) ∧
    LinnworksStream.get_next_page_token (N : Int) (N : Int) = none := by
  refine ⟨?_, ?_, ?_, ?_, ?_, ?_⟩
  · intro h; simp [LinnworksStream.get_next_page_token, h]
  · intro h; simp [LinnworksStream.get_next_page_token, not_lt.mpr h]
  · intro h; simp [ProcessedOrders.get_next_page_token, h]
  · intro h; simp [ProcessedOrders.get_next_page_token, not_lt.mpr h]
  · intro fuel hfuel
    have hrun := paginate_range N fuel 1 le_rfl hN (by omega)
    have he : N - 1 + 1 = N := by omega
    rw [he] at hrun
    simpa using hrun
  · simp [LinnworksStream.get_next_page_token]

/-- Evaluation witness for C3: with 2 total pages, pages 1 and 2 are
requested in order and nothing follows. -/
theorem page_token_sequencing_witness :
    paginate (fun q => LinnworksStream.get_next_page_token q (2 : Int)) 1 2
      = [1, 2] := by
  have h := (page_token_sequencing 1 2 2 (by decide)).2.2.2.2.1 2 (by decide)
  simpa using h

/-- Claim C7: the processed_orders child-context function returns exactly
the singleton mapping from "processed_order_id" to the record's pkOrderID
value, regardless of the incoming context. -/
theorem processed_orders_child_context (record : List (String × String))
    (v : String) (h : alookup record "pkOrderID" = some v) :
    ∀ context, ProcessedOrders.get_child_context record context
      = .ok [("processed_order_id", v)] := by
  intro context
  simp [ProcessedOrders.get_child_context, h]

/-- Evaluation witness for C7 on a concrete parent record and context. -/
theorem processed_orders_child_context_witness :
    ProcessedOrders.get_child_context [("pkOrderID", "abc"), ("nOrderId", "7")]
      (some [("old", "ctx")]) = .ok [("processed_order_id", "abc")] :=
  processed_orders_child_context [("pkOrderID", "abc"), ("nOrderId", "7")] "abc" rfl
    (some [("old", "ctx")])

/-- Claim C10: the stock_items next-page-token extractor ignores page
counts: over the tokens the paginator actually produces (none, or a
positive page number), it returns a token iff the body is a JSON array
(2 when no previous token exists, previous + 1 otherwise), and no token
for any non-array body. -/
theorem stock_items_next_page_token (body : Json) (prev : Option Int)
    (hreach : prev = none ∨ ∃ n, prev = some n ∧ 1 ≤ n) :
    ((∃ tok, StockItems.get_next_page_token body prev = some tok) ↔
      (∃ elems, body = Json.arr elems)) ∧
    (∀ elems, body = Json.arr elems →
      (prev = none → StockItems.get_next_page_token body prev = some 2) ∧
      (∀ n, prev = some n →
        StockItems.get_next_page_token body prev = some (n + 1))) := by
  cases body with
  | arr elems =>
    constructor
    · constructor
      · intro _
        exact ⟨elems, rfl⟩
      · intro _
        rcases hreach with h | ⟨n, hn, hge⟩
        · exact ⟨2, by simp [StockItems.get_next_page_token, h, pyTruthy]⟩
        · refine ⟨n + 1, ?_⟩
          have hne : (n != 0) = true := by
            simp only [bne_iff_ne]
            omega
          simp [StockItems.get_next_page_token, hn, pyTruthy, hne]
    · intro elems2 _
      constructor
      · intro h
        simp [StockItems.get_next_page_token, h, pyTruthy]
      · intro n hn
        rcases hreach with h | ⟨m, hm, hge⟩
        · rw [h] at hn
          cases hn
        · have hge2 : 1 ≤ n := by
            rw [hm] at hn
            injection hn with hmn
            omega
          have hne : (n != 0) = true := by
            simp only [bne_iff_ne]
            omega
          simp [StockItems.get_next_page_token, hn, pyTruthy, hne]
  | obj fields =>
    refine ⟨⟨fun hex => ?_, fun hex => ?_⟩, fun e he => ?_⟩
    · rcases hex with ⟨tok, htok⟩
      simp [StockItems.get_next_page_token] at htok
    · rcases hex with ⟨e, he⟩
      cases he
    · cases he
  | str s =>
    refine ⟨⟨fun hex => ?_, fun hex => ?_⟩, fun e he => ?_⟩
    · rcases hex with ⟨tok, htok⟩
      simp [StockItems.get_next_page_token] at htok
    · rcases hex with ⟨e, he⟩
      cases he
    · cases he
  | num n =>
    refine ⟨⟨fun hex => ?_, fun hex => ?_⟩, fun e he => ?_⟩
    · rcases hex with ⟨tok, htok⟩
      simp [StockItems.get_next_page_token] at htok
    · rcases hex with ⟨e, he⟩
      cases he
    · cases he
  | bool b =>
    refine ⟨⟨fun hex => ?_, fun hex => ?_⟩, fun e he => ?_⟩
    · rcases hex with ⟨tok, htok⟩
      simp [StockItems.get_next_page_token] at htok
    · rcases hex with ⟨e, he⟩
      cases he
    · cases he
  | null =>
    refine ⟨⟨fun hex => ?_, fun hex => ?_⟩, fun e he => ?_⟩
    · rcases hex with ⟨tok, htok⟩
      simp [StockItems.get_next_page_token] at htok
    · rcases hex with ⟨e, he⟩
      cases he
    · cases he

/-- Evaluation witness for C10: an array body with previous token 3 yields
token 4. -/
theorem stock_items_next_page_token_witness :
    StockItems.get_next_page_token (Json.arr []) (some 3) = some 4 :=
  ((stock_items_next_page_token (Json.arr []) (some 3)
    (Or.inr ⟨3, rfl, by decide⟩)).2 [] rfl).2 3 rfl

/-- Claim C4 is false on the code: there is no cache, so two acquisitions
of the authenticator perform two outbound exchange calls, not one. -/
theorem authenticator_no_cache_counterexample :
    LinnworksStream.exchangeCallsAfter ⟨200, [("Token", "tok")]⟩ 2 = 2 ∧
    (2 : Nat) ≠ 1 := by
  constructor
  · rfl
  · decide

/-- Claim C4 (amended): every access of the authenticator property invokes
one fresh token exchange; nothing is cached, so n acquisitions make
exactly n outbound exchange calls. -/
theorem authenticator_exchange_per_access (resp : AuthResponse) :
    ∀ n, LinnworksStream.exchangeCallsAfter resp n = n := by
  intro n
  induction n with
  | zero => rfl
  | succ m ih =>
    simp [LinnworksStream.exchangeCallsAfter, ih, LinnworksStream.authenticator,
      LinnworksAuthenticator.create_for_stream]

/-- Claim C8 is false as stated for 3xx statuses: a 304 exchange response
is not 2xx, yet `raise_for_status` does not raise and an authenticator is
produced from the body token. -/
theorem auth_non2xx_counterexample :
    ((304 : Nat) < 200 ∨ 300 ≤ (304 : Nat)) ∧
    LinnworksAuthenticator.create_for_stream ⟨304, [("Token", "tok")]⟩
      = (1, .ok ⟨"Authorization", "tok"⟩) := by
  constructor
  · right
    decide
  · rfl

/-- Claim C8 (amended): if the exchange returns a 4xx or 5xx status, the
error is raised and propagates immediately after the single outbound call
(no retry of the exchange), and no authenticator is produced. -/
theorem auth_error_propagation (resp : AuthResponse)
    (h4 : 400 ≤ resp.status) (h6 : resp.status < 600) :
    (LinnworksAuthenticator.create_for_stream resp).1 = 1 ∧
    (LinnworksAuthenticator.create_for_stream resp).2
      = .error (.httpError resp.status) := by
  have hc : 400 ≤ resp.status ∧ resp.status < 600 := ⟨h4, h6⟩
  constructor
  · rfl
  · simp [LinnworksAuthenticator.create_for_stream, raise_for_status, hc]

/-- Evaluation witness for the amended C8 at a concrete 401 response. -/
theorem auth_error_propagation_witness :
    (LinnworksAuthenticator.create_for_stream ⟨401, [("Token", "t")]⟩).1 = 1 ∧
    (LinnworksAuthenticator.create_for_stream ⟨401, [("Token", "t")]⟩).2
      = .error (.httpError 401) :=
  auth_error_propagation ⟨401, [("Token", "t")]⟩ (by decide) (by decide)

/-- Claim C5: when two or more persisted partition entries structurally
match the looked-up context, the lookup raises a duplicate-partition
error and never collapses them; with at most one match it returns the
matching entry, or none, without error. -/
theorem duplicate_partition_detection (partitions : List PartitionState)
    (ctx : List (String × String)) :
    (2 ≤ (partitions.filter (fun ps => dictEq ps.context ctx)).length →
      ∃ msg, find_in_partitions_list partitions ctx = .error (.valueError msg)) ∧
    ((partitions.filter (fun ps => dictEq ps.context ctx)).length ≤ 1 →
      find_in_partitions_list partitions ctx
        = .ok (partitions.filter (fun ps => dictEq ps.context ctx)).head?) := by
  constructor
  · intro h
    refine ⟨"State file contains duplicate entries for partition", ?_⟩
    have hgt : (partitions.filter (fun ps => dictEq ps.context ctx)).length > 1 := by
      omega
    simp [find_in_partitions_list, hgt]
  · intro h
    have hle : ¬((partitions.filter (fun ps => dictEq ps.context ctx)).length > 1) := by
      omega
    simp [find_in_partitions_list, hle]

/-- Evaluation witness for C5: a duplicated context raises; a unique
context returns its entry without error. -/
theorem duplicate_partition_detection_witness :
    (∃ msg, find_in_partitions_list [exPartA, exPartA, exPartB]
      [("processed_order_id", "A")] = .error (.valueError msg)) ∧
    find_in_partitions_list [exPartA, exPartB] [("processed_order_id", "A")]
      = .ok (some exPartA) := by
  constructor
  · exact (duplicate_partition_detection [exPartA, exPartA, exPartB]
      [("processed_order_id", "A")]).1 (by decide)
  · exact (duplicate_partition_detection [exPartA, exPartB]
      [("processed_order_id", "A")]).2 (by decide)

/-- Claim C6 is false as stated: stock_item_images has its partitions
emitted transiently by its parent stream within a single run, yet reading
its persisted state retains the full two-entry partitions list instead of
collapsing it to a single most-recent entry. -/
theorem state_collapse_counterexample :
    "stock_item_images" ∈ parent_driven_streams ∧
    get_state_if_exists exStateSII "stock_item_images" none none
      = .ok (some (.sstate ⟨some [exPartI1, exPartI2], []⟩)) ∧
    ([exPartI1, exPartI2] : List PartitionState).length ≠ 1 := by
  refine ⟨by decide, ?_, by decide⟩
  rfl

/-- Claim C6 (amended): reading a stream's state collapses the persisted
partitions list to a single entry holding the most-recently-seen context
exactly for the streams named in the hard-coded
`skip_incremental_partitions` list; every other stream, including the
parent-driven stock_item_images, retains its full partitions list. -/
theorem state_collapse_rule (ts : TapState) (sid : String)
    (bms : List (String × StreamState)) (ss : StreamState)
    (ps : List PartitionState) (lastE : PartitionState)
    (hb : ts.bookmarks = some bms) (hs : alookup bms sid = some ss)
    (hp : ss.partitions = some ps) (hl : ps.getLast? = some lastE) :
    (sid ∈ skip_incremental_partitions →
      get_state_if_exists ts sid none none
        = .ok (some (.sstate ⟨some [⟨lastE.context, []⟩], ss.scalars⟩))) ∧
    (sid ∉ skip_incremental_partitions →
      get_state_if_exists ts sid none none = .ok (some (.sstate ss))) := by
  constructor
  · intro hmem
    have hsome : ss.partitions.isSome := by
      rw [hp]
      rfl
    simp [get_state_if_exists, hb, hs, hmem, hsome, collapse_partitions, hp, hl]
  · intro hmem
    simp [get_state_if_exists, hb, hs, hmem]

/-- Evaluation witness for the amended C6: processed_order_details (which
is in the hard-coded list) has its two-entry partitions list collapsed to
the last context. -/
theorem state_collapse_rule_witness :
    get_state_if_exists exStatePOD "processed_order_details" none none
      = .ok (some (.sstate ⟨some [⟨[("processed_order_id", "B")], []⟩], []⟩)) :=
  (state_collapse_rule exStatePOD "processed_order_details"
    [("processed_order_details", ⟨some [exPartA, exPartB], []⟩)]
    ⟨some [exPartA, exPartB], []⟩ [exPartA, exPartB] exPartB
    rfl rfl rfl rfl).1 (by decide)

/-- Claim C9: for every stream, the partitions property computed from
persisted state returns at most one partition: the context of the last
entry of the stored partitions list when it is non-empty, and None when
the state holds no partitions.  The hypothesis excludes the one state
shape (a hard-coded stream whose partitions key holds the empty list) on
which the read raises IndexError instead of returning. -/
theorem partitions_property_last_only (ts : TapState) (name : String)
    (h : skipEmptyCrash ts name = false) :
    LinnworksStream.partitions ts name
      = .ok ((statePartitionsOf ts name).getLast?.map (fun e => [e.context])) := by
  match hb : ts.bookmarks with
  | none =>
    simp [LinnworksStream.partitions, get_state_partitions_list,
      get_state_if_exists, hb, statePartitionsOf]
  | some bms =>
    match hs : alookup bms name with
    | none =>
      simp [LinnworksStream.partitions, get_state_partitions_list,
        get_state_if_exists, hb, hs, statePartitionsOf]
    | some ss =>
      by_cases hmem : name ∈ skip_incremental_partitions
      · match hp : ss.partitions with
        | none =>
          have hns : ss.partitions.isSome = false := by
            rw [hp]
            rfl
          simp [LinnworksStream.partitions, get_state_partitions_list,
            get_state_if_exists, hb, hs, hmem, hns, statePartitionsOf, hp]
        | some [] =>
          exfalso
          simp [skipEmptyCrash, hb, hs, hp, hmem] at h
        | some (p :: rest) =>
          obtain ⟨lastE, hl⟩ : ∃ e, (p :: rest).getLast? = some e := by
            cases hgl : (p :: rest).getLast? with
            | some e => exact ⟨e, rfl⟩
            | none =>
              rw [List.getLast?_eq_none_iff] at hgl
              cases hgl
          have hsome : ss.partitions.isSome := by
            rw [hp]
            rfl
          simp [LinnworksStream.partitions, get_state_partitions_list,
            get_state_if_exists, hb, hs, hmem, hsome, collapse_partitions,
            hp, hl, statePartitionsOf]
      · simp [LinnworksStream.partitions, get_state_partitions_list,
          get_state_if_exists, hb, hs, hmem, statePartitionsOf]
        cases (ss.partitions.getD []).getLast? with
        | none => simp
        | some e => simp

/-- Evaluation witness for C9: the stock_item_images state with two stored
partitions yields exactly one partition, the last context. -/
theorem partitions_property_last_only_witness :
    LinnworksStream.partitions exStateSII "stock_item_images"
      = .ok (some [[("ItemId", "i2")]]) := by
  have h := partitions_property_last_only exStateSII "stock_item_images" rfl
  exact h
